import Mathlib

/-
Verification of the buildbot scheduler core: change filtering
(master/buildbot/changes/filter.py), report generation
(master/buildbot/reporters/generators/utils.py), and the scheduler base
behaviour exercised by master/buildbot/test/unit/schedulers/test_base.py.
Python code is embedded shallowly: attribute maps are partial functions,
fallible operations return Except, machine behaviour is pure.
-/

/-- Python-level values appearing in change attributes and properties:
`none` models Python `None`, the remaining constructors model strings and
integers. -/
inductive PyVal where
  | none
  | str (s : String)
  | int (n : Int)
deriving DecidableEq, BEq, Repr

/-- A change record as seen by `ChangeFilter.filter_change`: Python attribute
access is modelled by a partial map from attribute name to value (an absent
attribute maps to `Option.none`), and the `properties` mapping likewise maps
property name to value. -/
structure Change where
  attrs : String → Option PyVal
  properties : String → Option PyVal

/-- Python `getattr(change, name, default)` as used at filter.py line 139. -/
def getattrD (c : Change) (name : String) (dflt : PyVal) : PyVal :=
  (c.attrs name).getD dflt

/-- Direct Python attribute access (`change.project` and friends), which
raises `AttributeError` when the attribute is absent. -/
def getattrEx (c : Change) (name : String) : Except String PyVal :=
  match c.attrs name with
  | some v => Except.ok v
  | Option.none => Except.error ("AttributeError: " ++ name)

/-- `change.properties.getProperty(name, default)` as used at filter.py
line 143. -/
def getPropertyD (c : Change) (name : String) (dflt : PyVal) : PyVal :=
  (c.properties name).getD dflt

/-- Replace one attribute of a change with a present value. -/
def Change.setAttr (c : Change) (name : String) (v : PyVal) : Change :=
  { c with attrs := fun n => if n = name then some v else c.attrs n }

/-- Replace one property of a change with a present value. -/
def Change.setProperty (c : Change) (name : String) (v : PyVal) : Change :=
  { c with properties := fun n => if n = name then some v else c.properties n }

/-- A value-based filter as produced by the buildbot.util.ssfilter helpers:
the attribute name it applies to (`prop`) and its matching predicate
(`is_matched`). filter.py uses filters only through these two members. -/
structure FieldFilter where
  prop : String
  is_matched : PyVal → Bool

/-- The state of a constructed ChangeFilter (filter.py lines 82-122): the six
optional callables and the two lists of value-based filters. -/
structure ChangeFilter where
  filter_fn : Option (Change → Bool)
  project_fn : Option (PyVal → Bool)
  repository_fn : Option (PyVal → Bool)
  branch_fn : Option (PyVal → Bool)
  category_fn : Option (PyVal → Bool)
  codebase_fn : Option (PyVal → Bool)
  filters : List FieldFilter
  property_filters : List FieldFilter

/-- One `if self.x_fn is not None and not self.x_fn(change.x)` step of
filter_change: when the callable is configured the attribute is accessed
directly (raising when absent) and the callable is applied; an unconfigured
callable passes vacuously. -/
def checkFieldFn (fn : Option (PyVal → Bool)) (c : Change) (name : String) :
    Except String Bool :=
  match fn with
  | Option.none => Except.ok true
  | some f =>
    match getattrEx c name with
    | Except.ok v => Except.ok (f v)
    | Except.error e => Except.error e

/-- Sequencing of one boolean check before the rest of filter_change: an
exception propagates, a failed check is an early `return False`, a passed
check continues with the rest. -/
def seqCheck (r : Except String Bool) (rest : Unit → Except String Bool) :
    Except String Bool :=
  match r with
  | Except.error e => Except.error e
  | Except.ok false => Except.ok false
  | Except.ok true => rest ()

/-- The `self.filter_fn is not None and not self.filter_fn(change)` guard of
filter.py line 125, as the boolean "this check passes". -/
def ChangeFilter.filterFnPass (cf : ChangeFilter) (c : Change) : Bool :=
  match cf.filter_fn with
  | some f => f c
  | Option.none => true

/-- The loop over `self.filters` (filter.py lines 138-141): every value-based
field filter is evaluated against `getattr(change, filter.prop, '')`. -/
def ChangeFilter.fieldFiltersPass (cf : ChangeFilter) (c : Change) : Bool :=
  cf.filters.all (fun flt => flt.is_matched (getattrD c flt.prop (PyVal.str "")))

/-- The loop over `self.property_filters` (filter.py lines 142-145): every
property filter is evaluated against
`change.properties.getProperty(filter.prop, '')`. -/
def ChangeFilter.propertyFiltersPass (cf : ChangeFilter) (c : Change) : Bool :=
  cf.property_filters.all
    (fun flt => flt.is_matched (getPropertyD c flt.prop (PyVal.str "")))

/-- filter.py lines 124-146: the chain of early `return False` checks, in the
source order -- generic filter function, project, codebase, repository,
category, branch, then the value-based field filters, then the property
filters -- ending in `return True`. -/
def ChangeFilter.filter_change (cf : ChangeFilter) (c : Change) :
    Except String Bool :=
  seqCheck (Except.ok (cf.filterFnPass c)) (fun _ =>
  seqCheck (checkFieldFn cf.project_fn c "project") (fun _ =>
  seqCheck (checkFieldFn cf.codebase_fn c "codebase") (fun _ =>
  seqCheck (checkFieldFn cf.repository_fn c "repository") (fun _ =>
  seqCheck (checkFieldFn cf.category_fn c "category") (fun _ =>
  seqCheck (checkFieldFn cf.branch_fn c "branch") (fun _ =>
  seqCheck (Except.ok (cf.fieldFiltersPass c)) (fun _ =>
  seqCheck (Except.ok (cf.propertyFiltersPass c)) (fun _ =>
  Except.ok true))))))))

/-- A configuration error raised at construction time. -/
structure ConfigError where
  message : String
deriving DecidableEq, Repr

/-- Modelled from the spec: a value spec accepted for a non-branch field
filter argument of ChangeFilter.__init__ -- an exact string, a list of
acceptable strings, or (`invalid`) an argument of invalid type such as an
integer, which is a configuration error. The helper building these filters
(buildbot.util.ssfilter's `_create_filters`) is not among the sources. -/
inductive ValSpec where
  | str (s : String)
  | list (l : List String)
  | invalid
deriving DecidableEq, Repr

/-- Modelled from the spec: a branch filter argument. `notABranch` is the
distinct "unset" sentinel (no filter at all), while `val PyVal.none` filters
for the literal default branch `None`. -/
inductive BranchArg where
  | notABranch
  | val (v : PyVal)
  | vals (l : List PyVal)
  | invalid
deriving Repr

/-- A compiled regular expression, embedded as its match predicate (the
regex engine is an external collaborator). -/
def RePattern : Type := PyVal → Bool

/-- The list of acceptable string values denoted by a value spec. -/
def valSpecList : ValSpec → List String
  | ValSpec.str s => [s]
  | ValSpec.list l => l
  | ValSpec.invalid => []

/-- Modelled from the spec: `_create_filters` of buildbot.util.ssfilter (not
among the sources) builds the value-based filters for one non-branch field
from the eq / not_eq / re / not_re arguments; an argument of invalid type
fails fast with a configuration error. -/
def _create_filters (veq vne : Option ValSpec) (vre vnre : Option RePattern)
    (prop : String) : Except ConfigError (List FieldFilter) :=
  match veq, vne with
  | some ValSpec.invalid, _ =>
    Except.error ⟨prop ++ " filter value has invalid type"⟩
  | _, some ValSpec.invalid =>
    Except.error ⟨prop ++ " filter value has invalid type"⟩
  | _, _ =>
    let eqf := match veq with
      | some sp =>
        [FieldFilter.mk prop
          (fun v => (valSpecList sp).any (fun s => v == PyVal.str s))]
      | Option.none => []
    let nef := match vne with
      | some sp =>
        [FieldFilter.mk prop
          (fun v => !(valSpecList sp).any (fun s => v == PyVal.str s))]
      | Option.none => []
    let ref := match vre with
      | some p => [FieldFilter.mk prop p]
      | Option.none => []
    let nref := match vnre with
      | some p => [FieldFilter.mk prop (fun v => !p v)]
      | Option.none => []
    Except.ok (eqf ++ nef ++ ref ++ nref)

/-- The list of acceptable branch values denoted by a branch argument. -/
def branchArgList : BranchArg → List PyVal
  | BranchArg.notABranch => []
  | BranchArg.val v => [v]
  | BranchArg.vals l => l
  | BranchArg.invalid => []

/-- Modelled from the spec: `_create_branch_filters` of buildbot.util.ssfilter
(not among the sources); like `_create_filters` but the `NotABranch` sentinel
means "no filter" and the literal `None` is an acceptable branch value. -/
def _create_branch_filters (beq bne : BranchArg) (bre bnre : Option RePattern)
    (prop : String) : Except ConfigError (List FieldFilter) :=
  match beq, bne with
  | BranchArg.invalid, _ =>
    Except.error ⟨prop ++ " filter value has invalid type"⟩
  | _, BranchArg.invalid =>
    Except.error ⟨prop ++ " filter value has invalid type"⟩
  | _, _ =>
    let eqf := match beq with
      | BranchArg.notABranch => []
      | sp =>
        [FieldFilter.mk prop
          (fun v => (branchArgList sp).any (fun w => v == w))]
    let nef := match bne with
      | BranchArg.notABranch => []
      | sp =>
        [FieldFilter.mk prop
          (fun v => !(branchArgList sp).any (fun w => v == w))]
    let ref := match bre with
      | some p => [FieldFilter.mk prop p]
      | Option.none => []
    let nref := match bnre with
      | some p => [FieldFilter.mk prop (fun v => !p v)]
      | Option.none => []
    Except.ok (eqf ++ nef ++ ref ++ nref)

/-- Modelled from the spec: `_create_property_filters` of
buildbot.util.ssfilter (not among the sources); each dict entry yields one
property filter on the named property. -/
def _create_property_filters (peq pne : List (String × PyVal))
    (pre pnre : List (String × RePattern)) : List FieldFilter :=
  peq.map (fun kv => FieldFilter.mk kv.1 (fun v => v == kv.2))
    ++ pne.map (fun kv => FieldFilter.mk kv.1 (fun v => !(v == kv.2)))
    ++ pre.map (fun kv => FieldFilter.mk kv.1 kv.2)
    ++ pnre.map (fun kv => FieldFilter.mk kv.1 (fun v => !kv.2 v))

/-- The argument list of ChangeFilter.__init__ (filter.py lines 49-81) with
the Python default values; regex arguments are embedded as compiled match
predicates. -/
structure ChangeFilterArgs where
  filter_fn : Option (Change → Bool) := Option.none
  project : Option ValSpec := Option.none
  project_not_eq : Option ValSpec := Option.none
  project_re : Option RePattern := Option.none
  project_not_re : Option RePattern := Option.none
  project_fn : Option (PyVal → Bool) := Option.none
  repository : Option ValSpec := Option.none
  repository_not_eq : Option ValSpec := Option.none
  repository_re : Option RePattern := Option.none
  repository_not_re : Option RePattern := Option.none
  repository_fn : Option (PyVal → Bool) := Option.none
  branch : BranchArg := BranchArg.notABranch
  branch_not_eq : BranchArg := BranchArg.notABranch
  branch_re : Option RePattern := Option.none
  branch_not_re : Option RePattern := Option.none
  branch_fn : Option (PyVal → Bool) := Option.none
  category : Option ValSpec := Option.none
  category_not_eq : Option ValSpec := Option.none
  category_re : Option RePattern := Option.none
  category_not_re : Option RePattern := Option.none
  category_fn : Option (PyVal → Bool) := Option.none
  codebase : Option ValSpec := Option.none
  codebase_not_eq : Option ValSpec := Option.none
  codebase_re : Option RePattern := Option.none
  codebase_not_re : Option RePattern := Option.none
  codebase_fn : Option (PyVal → Bool) := Option.none
  property_eq : List (String × PyVal) := []
  property_not_eq : List (String × PyVal) := []
  property_re : List (String × RePattern) := []
  property_not_re : List (String × RePattern) := []

/-- ChangeFilter.__init__ (filter.py lines 82-122): store the six callables
unchecked, then build the value-based filters for the five fields in source
order followed by the property filters; the only construction-time failures
are the invalid-type errors raised by the filter creation helpers. -/
def ChangeFilter.init (a : ChangeFilterArgs) : Except ConfigError ChangeFilter := do
  let pf ← _create_filters a.project a.project_not_eq a.project_re
    a.project_not_re "project"
  let rf ← _create_filters a.repository a.repository_not_eq a.repository_re
    a.repository_not_re "repository"
  let bf ← _create_branch_filters a.branch a.branch_not_eq a.branch_re
    a.branch_not_re "branch"
  let catf ← _create_filters a.category a.category_not_eq a.category_re
    a.category_not_re "category"
  let cbf ← _create_filters a.codebase a.codebase_not_eq a.codebase_re
    a.codebase_not_re "codebase"
  Except.ok
    { filter_fn := a.filter_fn
      project_fn := a.project_fn
      repository_fn := a.repository_fn
      branch_fn := a.branch_fn
      category_fn := a.category_fn
      codebase_fn := a.codebase_fn
      filters := pf ++ rf ++ bf ++ catf ++ cbf
      property_filters := _create_property_filters a.property_eq
        a.property_not_eq a.property_re a.property_not_re }

/-
Report generation: master/buildbot/reporters/generators/utils.py.
-/

/-- Build result code SUCCESS (buildbot.process.results). -/
def SUCCESS : Int := 0

/-- Build result code WARNINGS (buildbot.process.results). -/
def WARNINGS : Int := 1

/-- Build result code FAILURE (buildbot.process.results). -/
def FAILURE : Int := 2

/-- Build result code SKIPPED (buildbot.process.results). -/
def SKIPPED : Int := 3

/-- Build result code EXCEPTION (buildbot.process.results). -/
def EXCEPTION : Int := 4

/-- Build result code RETRY (buildbot.process.results). -/
def RETRY : Int := 5

/-- Build result code CANCELLED (buildbot.process.results). -/
def CANCELLED : Int := 6

/-- The previous build as consulted by `is_message_needed_by_results`: only
its result code is read. -/
structure PrevBuild where
  results : Int
deriving DecidableEq, Repr

/-- The build record as consulted by `is_message_needed_by_results`: its
result code and the optional previous build (`build['prev_build']`, `None`
when there is no previous build). -/
structure Build where
  results : Int
  prev_build : Option PrevBuild
deriving DecidableEq, Repr

/-- BuildStatusGeneratorMixin.is_message_needed_by_results (utils.py lines
127-148): the chain of mode checks with early `return True`, ending in
`return False`. The `if prev and ...` guards require the previous build to
be present. -/
def is_message_needed_by_results (mode : List String) (build : Build) : Bool :=
  Id.run do
    let results := build.results
    if mode.contains "change" then
      if let some prev := build.prev_build then
        if prev.results != results then
          return true
    if mode.contains "failing" && results == FAILURE then
      return true
    if mode.contains "passing" && results == SUCCESS then
      return true
    if mode.contains "problem" && results == FAILURE then
      if let some prev := build.prev_build then
        if prev.results != FAILURE then
          return true
    if mode.contains "warnings" && results == WARNINGS then
      return true
    if mode.contains "exception" && results == EXCEPTION then
      return true
    if mode.contains "cancelled" && results == CANCELLED then
      return true
    return false

/-- BuildStatusGeneratorMixin._compute_shortcut_modes (utils.py lines
277-285), on a mode given as a single string: `"all"` and `"warnings"`
expand to fixed tuples, any other string becomes a one-element tuple. -/
def _compute_shortcut_modes (mode : String) : List String :=
  if mode = "all" then
    ["failing", "passing", "warnings", "exception", "cancelled"]
  else if mode = "warnings" then
    ["failing", "warnings"]
  else
    [mode]

/-- A message body as handled by `_merge_body`: a string, a list, or some
other Python object (e.g. a JSON-able dict), on which only the isinstance
checks of the source are performed. -/
inductive Body where
  | str (s : String)
  | list (l : List Body)
  | dict (entries : List (String × Body))
  | int (n : Int)

/-- True exactly on string bodies (`isinstance(body, str)`). -/
def Body.isStr : Body → Bool
  | Body.str _ => true
  | _ => false

/-- True exactly on list bodies (`isinstance(body, list)`). -/
def Body.isList : Body → Bool
  | Body.list _ => true
  | _ => false

/-- BuildStatusGeneratorMixin._merge_body (utils.py lines 169-185): `None`
on either side passes the other through; two strings or two lists
concatenate; any other combination logs a warning and keeps the earlier
body, returning False as the "merged" flag. -/
def _merge_body (body new_body : Option Body) : Option Body × Bool :=
  match body with
  | Option.none => (new_body, true)
  | some b =>
    match new_body with
    | Option.none => (some b, true)
    | some nb =>
      match b, nb with
      | Body.str s, Body.str t => (some (Body.str (s ++ t)), true)
      | Body.list l, Body.list m => (some (Body.list (l ++ m)), true)
      | _, _ => (some b, false)

/-
Scheduler base behaviour (buildbot.schedulers.base). The scheduler module
itself is not among the sources -- only its unit tests are -- so the
definitions below are modelled from the spec and checked against the
expectations of master/buildbot/test/unit/schedulers/test_base.py.
-/

/-- Lookup in an ordered association list keyed by strings (Python dict
read). -/
def assocGet {α : Type} : List (String × α) → String → Option α
  | [], _ => Option.none
  | kv :: rest, key => if kv.1 = key then some kv.2 else assocGet rest key

/-- Replace-or-append update of an ordered association list (Python dict
write: an existing key keeps its position, a new key is appended). -/
def assocSet {α : Type} : List (String × α) → String → α → List (String × α)
  | [], key, v => [(key, v)]
  | kv :: rest, key, v =>
    if kv.1 = key then (key, v) :: rest else kv :: assocSet rest key v

/-- A property mapping: ordered association of property name to
(value, source-name) pair. -/
abbrev Props := List (String × (PyVal × String))

/-- Set one property, replacing any existing pair under the same name. -/
def setProp (ps : Props) (key : String) (vs : PyVal × String) : Props :=
  assocSet ps key vs

/-- Read one property's (value, source) pair. -/
def getProp (ps : Props) (key : String) : Option (PyVal × String) :=
  assocGet ps key

/-- Overlay `overlay` onto `base` left to right, later writes replacing
earlier pairs under the same name. -/
def updateProps (base overlay : Props) : Props :=
  overlay.foldl (fun acc kv => setProp acc kv.1 kv.2) base

/-- Modelled from the spec: one configured codebase's defaults -- the
optional repository, branch and revision keys of the per-codebase dict of
buildbot.schedulers.base (not among the sources). -/
structure CodebaseDef where
  repository : Option String := Option.none
  branch : Option String := Option.none
  revision : Option String := Option.none
deriving DecidableEq, Repr

/-- Modelled from the spec: the scheduler state relevant to buildset
creation in buildbot.schedulers.base (not among the sources) -- its name,
configured builder names, normalized codebase mapping, and scheduler-level
static properties. -/
structure Scheduler where
  name : String
  builderNames : List String
  codebases : List (String × CodebaseDef)
  properties : List (String × PyVal)
deriving DecidableEq, Repr

/-- A fully-defaulted inline sourcestamp dict as issued to the buildset
creation call: the five keys of the output shape, with branch and revision
nullable. -/
structure SSDict where
  repository : String
  branch : Option String
  revision : Option String
  codebase : String
  project : String
deriving DecidableEq, Repr

/-- A sourcestamp as passed to buildset creation: either a persisted
sourcestamp id or an inline dict of fields. -/
inductive SS where
  | id (n : Nat)
  | inline (d : SSDict)
deriving DecidableEq, Repr

/-- Modelled from the spec: a partial sourcestamp dict passed to
addBuildsetForSourceStampsWithDefaults -- it names a codebase and supplies
only its explicitly-present fields (branch and revision may be explicitly
null). -/
structure PartialSS where
  codebase : String
  repository : Option String := Option.none
  branch : Option (Option String) := Option.none
  revision : Option (Option String) := Option.none
  project : Option String := Option.none
deriving DecidableEq, Repr

/-- Modelled from the spec: the argument record of the single atomic
buildset-creation call issued by addBuildsetForSourceStamps of
buildbot.schedulers.base (not among the sources). -/
structure BuildsetReq where
  reason : String
  waited_for : Bool
  builderNames : List String
  properties : Props
  sourcestamps : List SS
  priority : Int
deriving DecidableEq, Repr

/-- Modelled from the spec: addBuildsetForSourceStamps of
buildbot.schedulers.base (not among the sources), the common tail of the
three buildset-creation entry points. Builder names: an explicit override
is authoritative, otherwise the scheduler's configured builder names are
used. Properties: start from the scheduler-level static map (each value
tagged source "Scheduler"), overlay the caller-supplied properties, then
unconditionally set the `scheduler` property to the scheduler's own name
(tagged "Scheduler") last; then issue the one buildset-creation call. -/
def addBuildsetForSourceStamps (sched : Scheduler) (reason : String)
    (waited_for : Bool) (sourcestamps : List SS)
    (builderNamesOverride : Option (List String)) (properties : Props)
    (priority : Int) : BuildsetReq :=
  let schedProps : Props :=
    sched.properties.map (fun kv => (kv.1, (kv.2, "Scheduler")))
  let merged := updateProps schedProps properties
  let finalProps := setProp merged "scheduler" (PyVal.str sched.name, "Scheduler")
  { reason := reason
    waited_for := waited_for
    builderNames := builderNamesOverride.getD sched.builderNames
    properties := finalProps
    sourcestamps := sourcestamps
    priority := priority }

/-- Modelled from the spec: the stub sourcestamp dict for one codebase
built from its configured defaults -- repository defaulting to the empty
string, revision and branch to null, project to the empty string -- with an
input sourcestamp (when given) overlaid, supplying only the fields
explicitly present in it. -/
def stampWithDefaults (cb : CodebaseDef) (name : String)
    (input : Option PartialSS) : SSDict :=
  let base : SSDict :=
    { repository := cb.repository.getD ""
      branch := cb.branch
      revision := cb.revision
      codebase := name
      project := "" }
  match input with
  | some ss =>
    { repository := ss.repository.getD base.repository
      branch := (ss.branch).getD base.branch
      revision := (ss.revision).getD base.revision
      codebase := name
      project := ss.project.getD base.project }
  | Option.none => base

/-- The input sourcestamp naming the given codebase, if any. -/
def lookupPartial (stamps : List PartialSS) (name : String) : Option PartialSS :=
  stamps.find? (fun ss => ss.codebase == name)

/-- Modelled from the spec: addBuildsetForSourceStampsWithDefaults of
buildbot.schedulers.base (not among the sources). Every configured codebase
gets a stub entry from its configured defaults with the matching input
sourcestamp (by codebase name) overlaid; input sourcestamps naming
unconfigured codebases are passed through with their missing fields
defaulted the same way; the full inline list is handed to
addBuildsetForSourceStamps. -/
def addBuildsetForSourceStampsWithDefaults (sched : Scheduler)
    (reason : String) (waited_for : Bool) (sourcestamps : List PartialSS) :
    BuildsetReq :=
  let configured := sched.codebases.map (fun kv =>
    stampWithDefaults kv.2 kv.1 (lookupPartial sourcestamps kv.1))
  let extra := sourcestamps.filter (fun ss =>
    !(sched.codebases.any (fun kv => kv.1 == ss.codebase)))
  let extraStamps := extra.map (fun ss => stampWithDefaults {} ss.codebase (some ss))
  addBuildsetForSourceStamps sched reason waited_for
    ((configured ++ extraStamps).map SS.inline) Option.none [] 0

/-- Modelled from the spec: a persisted change record as consumed by
addBuildsetForChanges -- its changeid, codebase, associated sourcestamp id,
and the change's own properties. -/
structure SchedChange where
  changeid : Nat
  codebase : String
  sourcestampid : Nat
  properties : List (String × PyVal) := []
deriving DecidableEq, Repr

/-- The persisted change table, looked up by changeid (`getChange(id)`). -/
abbrev ChangeDB := List SchedChange

/-- Resolve one changeid against the persisted change table. -/
def getChange (db : ChangeDB) (changeid : Nat) : Option SchedChange :=
  db.find? (fun ch => ch.changeid == changeid)

/-- Keep, per codebase, the change with the highest-numbered changeid:
insert one fetched change into the per-codebase grouping (codebase
encounter order preserved; on an equal changeid the earlier entry is
kept). -/
def insertLastChange (acc : List (String × SchedChange)) (ch : SchedChange) :
    List (String × SchedChange) :=
  match acc with
  | [] => [(ch.codebase, ch)]
  | (cb, best) :: rest =>
    if cb = ch.codebase then
      if best.changeid < ch.changeid then (cb, ch) :: rest
      else (cb, best) :: rest
    else
      (cb, best) :: insertLastChange rest ch

/-- Modelled from the spec: group fetched changes by codebase keeping only
the change with the highest-numbered changeid per codebase (changeid
ordering, not submission order, is the tiebreak). -/
def lastChangePerCodebase (changes : List SchedChange) :
    List (String × SchedChange) :=
  changes.foldl insertLastChange []

/-- Insert one change into a list sorted by ascending changeid. -/
def insertByChangeid (ch : SchedChange) :
    List SchedChange → List SchedChange
  | [] => [ch]
  | c :: rest =>
    if ch.changeid ≤ c.changeid then ch :: c :: rest
    else c :: insertByChangeid ch rest

/-- Sort changes by ascending changeid. -/
def sortByChangeid (l : List SchedChange) : List SchedChange :=
  l.foldr insertByChangeid []

/-- Modelled from the spec: addBuildsetForChanges of
buildbot.schedulers.base (not among the sources). The changeids (arbitrary
order) are resolved to change records and grouped by codebase; within each
codebase the sourcestamp id of the highest-numbered changeid is selected;
configured codebases with no changes get a default inline sourcestamp dict
from their configuration; each selected change's own properties are merged
(tagged source "Change") in changeid order, last writer per key winning;
the result is handed to addBuildsetForSourceStamps. -/
def addBuildsetForChanges (sched : Scheduler) (db : ChangeDB)
    (reason : String) (waited_for : Bool) (changeids : List Nat) :
    BuildsetReq :=
  let fetched := changeids.filterMap (getChange db)
  let groups := lastChangePerCodebase fetched
  let changeStamps := groups.map (fun kv => SS.id kv.2.sourcestampid)
  let defaultStamps := (sched.codebases.filter (fun kv =>
      !(groups.any (fun g => g.1 == kv.1)))).map (fun kv =>
      SS.inline (stampWithDefaults kv.2 kv.1 Option.none))
  let selected := sortByChangeid (groups.map (fun kv => kv.2))
  let changeProps : Props := selected.foldl (fun acc ch =>
    updateProps acc (ch.properties.map (fun kv => (kv.1, (kv.2, "Change"))))) []
  addBuildsetForSourceStamps sched reason waited_for
    (changeStamps ++ defaultStamps) Option.none changeProps 0

/-
Change consumption and activation arbitration (buildbot.schedulers.base,
not among the sources; modelled from the spec).
-/

/-- Modelled from the spec: the arguments of startConsumingChanges of
buildbot.schedulers.base (not among the sources) -- the optional importance
callable (which may raise, modelled as Except), the optional change filter,
and the onlyImportant flag. -/
structure ConsumeCfg where
  fileIsImportant : Option (Change → Except String Bool) := Option.none
  change_filter : Option (Change → Bool) := Option.none
  onlyImportant : Bool := false

/-- Modelled from the spec: the handling of one incoming change
notification. A configured filter that rejects the change drops it; then
importance is computed by the callable (absent meaning important); a raise
from the callable is logged and drops the change as if filtered out; an
unimportant change is dropped when onlyImportant is set; otherwise the
change is delivered with its importance flag. Returns (delivery, whether an
error was logged). -/
def processChange (cfg : ConsumeCfg) (ch : Change) : Option Bool × Bool :=
  if (match cfg.change_filter with
      | some flt => !(flt ch)
      | Option.none => false) then
    (Option.none, false)
  else
    match (match cfg.fileIsImportant with
           | some f => f ch
           | Option.none => Except.ok true) with
    | Except.error _ => (Option.none, true)
    | Except.ok important =>
      if cfg.onlyImportant && !important then (Option.none, false)
      else (some important, false)

/-- Modelled from the spec: consumption of a stream of change notifications
in arrival order; returns the (change, important) pairs delivered to the
scheduler's per-change handler and the number of logged
importance-callable errors. -/
def consumeChanges (cfg : ConsumeCfg) :
    List Change → List (Change × Bool) × Nat
  | [] => ([], 0)
  | ch :: rest =>
    let r := processChange cfg ch
    let restOut := consumeChanges cfg rest
    match r.1 with
    | some imp => ((ch, imp) :: restOut.1, (if r.2 then 1 else 0) + restOut.2)
    | Option.none => (restOut.1, (if r.2 then 1 else 0) + restOut.2)

/-- Modelled from the spec: the activation arbiter state as observed by one
scheduler instance -- the shared claim-table row for this scheduler's
object id (the owning master id, if any), whether this instance currently
reports itself active, and how many times its activate() hook has run. -/
structure ArbiterState where
  claim : Option Nat
  active : Bool
  activateCalls : Nat
deriving DecidableEq, Repr

/-- Modelled from the spec: one poll of the activation arbiter by the
instance with master id `selfId`: claim-if-absent keyed by object id; on a
successful claim the instance becomes active and its activate() hook runs
once; if a different instance owns the claim this instance stays inactive;
if this instance already owns it the poll is idempotent. -/
def pollOnce (selfId : Nat) (s : ArbiterState) : ArbiterState :=
  match s.claim with
  | Option.none =>
    { claim := some selfId, active := true, activateCalls := s.activateCalls + 1 }
  | some owner =>
    if owner = selfId then s else { s with active := false }

/-- Iterated polls across successive poll intervals. -/
def pollN (selfId : Nat) (s : ArbiterState) : Nat → ArbiterState
  | 0 => s
  | n + 1 => pollN selfId (pollOnce selfId s) n

/-- Modelled from the spec: the owning instance releasing its claim on
deactivation; the shared row is cleared, the observing instance's local
state is untouched. -/
def releaseClaim (s : ArbiterState) : ArbiterState :=
  { s with claim := Option.none }

/-- The observed state of a second, freshly started instance while the
claim is held by the master with id `other`. -/
def secondInstanceStart (other : Nat) : ArbiterState :=
  { claim := some other, active := false, activateCalls := 0 }

/-
Additional definitions used by concrete instances.
-/

/-- The configured callable that filter_change applies to the given change
attribute, if any. -/
def ChangeFilter.fnForAttr (cf : ChangeFilter) (name : String) :
    Option (PyVal → Bool) :=
  if name = "project" then cf.project_fn
  else if name = "codebase" then cf.codebase_fn
  else if name = "repository" then cf.repository_fn
  else if name = "category" then cf.category_fn
  else if name = "branch" then cf.branch_fn
  else Option.none

/-- A change with no attributes and no properties. -/
def emptyChange : Change :=
  { attrs := fun _ => Option.none, properties := fun _ => Option.none }

/-- A change whose only attribute is branch `master`. -/
def masterBranchChange : Change :=
  { attrs := fun n => if n = "branch" then some (PyVal.str "master") else Option.none,
    properties := fun _ => Option.none }

/-- A filter with nothing configured (every check passes vacuously). -/
def emptyChangeFilter : ChangeFilter :=
  { filter_fn := Option.none, project_fn := Option.none,
    repository_fn := Option.none, branch_fn := Option.none,
    category_fn := Option.none, codebase_fn := Option.none,
    filters := [], property_filters := [] }

/-- A filter with one value-based category filter and one color property
filter, nothing else configured. -/
def sampleCategoryFilter : ChangeFilter :=
  { filter_fn := Option.none, project_fn := Option.none,
    repository_fn := Option.none, branch_fn := Option.none,
    category_fn := Option.none, codebase_fn := Option.none,
    filters := [FieldFilter.mk "category" (fun v => v == PyVal.str "")],
    property_filters := [FieldFilter.mk "color" (fun v => v == PyVal.str "")] }

/-- An importance callable that always raises (as `lambda c: 1/0` does). -/
def alwaysRaises : Change → Except String Bool :=
  fun _ => Except.error "ZeroDivisionError"

/-- A consumption configuration whose importance callable always raises,
with no change filter and onlyImportant unset. -/
def raisingImportanceCfg : ConsumeCfg :=
  { fileIsImportant := some alwaysRaises, change_filter := Option.none,
    onlyImportant := false }

/-- All configured sub-filters of a change filter pass on the given change:
the generic filter function, the five per-field callables (each reading its
attribute directly), the value-based field filters, and the property
filters. -/
def ChangeFilter.allChecksPass (cf : ChangeFilter) (c : Change) : Prop :=
  cf.filterFnPass c = true
  ∧ checkFieldFn cf.project_fn c "project" = Except.ok true
  ∧ checkFieldFn cf.codebase_fn c "codebase" = Except.ok true
  ∧ checkFieldFn cf.repository_fn c "repository" = Except.ok true
  ∧ checkFieldFn cf.category_fn c "category" = Except.ok true
  ∧ checkFieldFn cf.branch_fn c "branch" = Except.ok true
  ∧ cf.fieldFiltersPass c = true
  ∧ cf.propertyFiltersPass c = true

/-
Helper lemmas.
-/

/-- An early-return check chain step passes iff the current check passes and
the rest passes. -/
theorem seqCheck_eq_ok_true (r : Except String Bool)
    (rest : Unit → Except String Bool) :
    seqCheck r rest = Except.ok true ↔
      (r = Except.ok true ∧ rest () = Except.ok true) := by
  cases r with
  | error e => simp [seqCheck]
  | ok b => cases b <;> simp [seqCheck]

/-- Reading back the key just set in an association list yields the value
just written. -/
theorem assocGet_assocSet {α : Type} (ps : List (String × α)) (k : String)
    (v : α) : assocGet (assocSet ps k v) k = some v := by
  induction ps with
  | nil => simp [assocSet, assocGet]
  | cons kv rest ih =>
    by_cases h : kv.1 = k
    · simp [assocSet, assocGet, h]
    · simp [assocSet, assocGet, h, ih]

/-- While a different master owns the claim, polling is a no-op for a
freshly started second instance. -/
theorem pollN_other_owner_fixed (selfId other : Nat) (h : other ≠ selfId) :
    ∀ n, pollN selfId (secondInstanceStart other) n = secondInstanceStart other := by
  have hstep : pollOnce selfId (secondInstanceStart other) = secondInstanceStart other := by
    simp [pollOnce, secondInstanceStart, h]
  intro n
  induction n with
  | zero => rfl
  | succ m ih =>
    show pollN selfId (pollOnce selfId (secondInstanceStart other)) m
        = secondInstanceStart other
    rw [hstep]
    exact ih

/-
Claim theorems.
-/

/-- C1 counterexample: with mode `["problem"]`, a FAILURE build with no
previous build is NOT notified, although the claim's condition "result is
FAILURE and there is no previous build" holds at this input: the source
requires the previous build to be present (`if prev and ...`). -/
theorem C1_counterexample_no_previous_build :
    is_message_needed_by_results ["problem"]
      { results := FAILURE, prev_build := Option.none } = false := by
  rfl

/-- C1 (amended): with mode `["problem"]`, `is_message_needed_by_results`
returns true exactly when the build's result is FAILURE and there is a
previous build whose result is not FAILURE; in particular current=FAILURE
with previous=FAILURE gives false and with previous=SUCCESS gives true. -/
theorem C1_problem_mode_requires_previous_non_failure :
    (∀ b : Build,
      is_message_needed_by_results ["problem"] b = true ↔
        (b.results = FAILURE ∧ ∃ p, b.prev_build = some p ∧ p.results ≠ FAILURE))
    ∧ is_message_needed_by_results ["problem"]
        { results := FAILURE, prev_build := some { results := FAILURE } } = false
    ∧ is_message_needed_by_results ["problem"]
        { results := FAILURE, prev_build := some { results := SUCCESS } } = true := by
  refine ⟨?_, by rfl, by rfl⟩
  intro b
  obtain ⟨results, prev⟩ := b
  cases prev with
  | none => simp [is_message_needed_by_results, Id.run]
  | some p =>
    simp only [is_message_needed_by_results, Id.run]
    by_cases h1 : results = FAILURE <;> by_cases h2 : p.results = FAILURE <;>
      simp [h1, h2]

/-- C3: each of the three buildset-creation entry points issues a
buildset-creation call whose merged properties map the key `scheduler` to
the scheduler's own name with source tag "Scheduler", for every
caller-supplied property map (including ones that set a key named
`scheduler`), every change set and every input sourcestamp list. -/
theorem C3_scheduler_property_cannot_be_overridden :
    (∀ (sched : Scheduler) (reason : String) (wf : Bool) (ss : List SS)
      (bns : Option (List String)) (props : Props) (prio : Int),
      getProp (addBuildsetForSourceStamps sched reason wf ss bns props
        prio).properties "scheduler" = some (PyVal.str sched.name, "Scheduler"))
    ∧ (∀ (sched : Scheduler) (reason : String) (wf : Bool)
      (stamps : List PartialSS),
      getProp (addBuildsetForSourceStampsWithDefaults sched reason wf
        stamps).properties "scheduler" = some (PyVal.str sched.name, "Scheduler"))
    ∧ (∀ (sched : Scheduler) (db : ChangeDB) (reason : String) (wf : Bool)
      (cids : List Nat),
      getProp (addBuildsetForChanges sched db reason wf
        cids).properties "scheduler" = some (PyVal.str sched.name, "Scheduler")) := by
  refine ⟨?_, ?_, ?_⟩
  · intro sched reason wf ss bns props prio
    simp [addBuildsetForSourceStamps, getProp, setProp, assocGet_assocSet]
  · intro sched reason wf stamps
    simp [addBuildsetForSourceStampsWithDefaults, addBuildsetForSourceStamps,
      getProp, setProp, assocGet_assocSet]
  · intro sched db reason wf cids
    simp [addBuildsetForChanges, addBuildsetForSourceStamps,
      getProp, setProp, assocGet_assocSet]

/-- C5: with configured codebases `{'': {}}` and an empty input sourcestamp
list, addBuildsetForSourceStampsWithDefaults issues a buildset whose
sourcestamp list is exactly the single stub dict with empty repository,
null branch and revision, empty codebase and empty project. -/
theorem C5_empty_codebase_default_stub :
    (addBuildsetForSourceStampsWithDefaults
      { name := "testsched", builderNames := ["b"], codebases := [("", {})],
        properties := [] }
      "power" false []).sourcestamps
      = [SS.inline
          { repository := "", branch := Option.none,
            revision := Option.none, codebase := "", project := "" }] := by
  rfl

/-- C8: while the activation claim is owned by a different master, a second
instance polling any number of times never runs its activate() hook and
never reports itself active; one poll after the owner releases the claim,
activate() runs (once) and the instance is active. -/
theorem C8_second_instance_never_activates (selfId other n : Nat)
    (h : other ≠ selfId) :
    (pollN selfId (secondInstanceStart other) n).activateCalls = 0
    ∧ (pollN selfId (secondInstanceStart other) n).active = false
    ∧ (pollOnce selfId (releaseClaim
        (pollN selfId (secondInstanceStart other) n))).activateCalls = 1
    ∧ (pollOnce selfId (releaseClaim
        (pollN selfId (secondInstanceStart other) n))).active = true := by
  rw [pollN_other_owner_fixed selfId other h n]
  exact ⟨rfl, rfl, rfl, rfl⟩

/-- C8 witness: a concrete second instance (master id 1) against owner
(master id 2) across three poll intervals. -/
theorem C8_second_instance_never_activates_witness :
    (2 : Nat) ≠ 1
    ∧ ((pollN 1 (secondInstanceStart 2) 3).activateCalls = 0
      ∧ (pollN 1 (secondInstanceStart 2) 3).active = false
      ∧ (pollOnce 1 (releaseClaim
          (pollN 1 (secondInstanceStart 2) 3))).activateCalls = 1
      ∧ (pollOnce 1 (releaseClaim
          (pollN 1 (secondInstanceStart 2) 3))).active = true) :=
  ⟨by decide, C8_second_instance_never_activates 1 2 3 (by decide)⟩

/-- C9: merging two message bodies concatenates two strings or two lists;
any other combination of two non-null bodies keeps the earlier body and
reports the later one dropped (no exception is raised -- the merge is a
total function). -/
theorem C9_merge_body_concat_or_drop :
    (∀ s t, _merge_body (some (Body.str s)) (some (Body.str t))
      = (some (Body.str (s ++ t)), true))
    ∧ (∀ l m, _merge_body (some (Body.list l)) (some (Body.list m))
      = (some (Body.list (l ++ m)), true))
    ∧ (∀ b nb : Body, ¬(b.isStr = true ∧ nb.isStr = true) →
        ¬(b.isList = true ∧ nb.isList = true) →
        _merge_body (some b) (some nb) = (some b, false)) := by
  refine ⟨fun s t => rfl, fun l m => rfl, ?_⟩
  intro b nb hs hl
  cases b <;> cases nb <;> simp [Body.isStr, Body.isList] at hs hl ⊢ <;>
    rfl

/-- C9 witness: a dict body followed by a string body keeps the dict and
drops the string. -/
theorem C9_merge_body_concat_or_drop_witness :
    _merge_body (some (Body.dict [])) (some (Body.str "x"))
      = (some (Body.dict []), false) :=
  C9_merge_body_concat_or_drop.2.2 (Body.dict []) (Body.str "x")
    (by simp [Body.isStr]) (by simp [Body.isList])

/-- A configured per-field callable check is unaffected by setting another
attribute (or any attribute when the callable is absent). -/
theorem checkFieldFn_setAttr (fn : Option (PyVal → Bool)) (c : Change)
    (name n : String) (v : PyVal)
    (h : fn = Option.none ∨ n ≠ name) :
    checkFieldFn fn (c.setAttr name v) n = checkFieldFn fn c n := by
  cases h with
  | inl h => simp [checkFieldFn, h]
  | inr h => simp [checkFieldFn, getattrEx, Change.setAttr, h]

/-- Defaulted attribute reads cannot distinguish an absent attribute from
one set to the empty string. -/
theorem getattrD_setAttr_absent (c : Change) (name n : String)
    (h : c.attrs name = Option.none) :
    getattrD (c.setAttr name (PyVal.str "")) n (PyVal.str "")
      = getattrD c n (PyVal.str "") := by
  unfold getattrD Change.setAttr
  by_cases hn : n = name
  · subst hn; simp [h]
  · simp [hn]

/-- Defaulted property reads cannot distinguish an absent property from one
set to the empty string. -/
theorem getPropertyD_setProperty_absent (c : Change) (name n : String)
    (h : c.properties name = Option.none) :
    getPropertyD (c.setProperty name (PyVal.str "")) n (PyVal.str "")
      = getPropertyD c n (PyVal.str "") := by
  unfold getPropertyD Change.setProperty
  by_cases hn : n = name
  · subst hn; simp [h]
  · simp [hn]

/-- The per-codebase grouping after inserting one change: the entry under
the change's codebase becomes the changeid-wise maximum of the old entry
and the change; other entries are untouched. -/
theorem assocGet_insertLastChange (acc : List (String × SchedChange))
    (ch : SchedChange) (cb : String) :
    assocGet (insertLastChange acc ch) cb =
      if cb = ch.codebase then
        some (match assocGet acc cb with
          | some best => if best.changeid < ch.changeid then ch else best
          | Option.none => ch)
      else assocGet acc cb := by
  induction acc with
  | nil =>
    by_cases h : cb = ch.codebase
    · simp [insertLastChange, assocGet, h]
    · have h' : ¬(ch.codebase = cb) := fun hh => h hh.symm
      simp [insertLastChange, assocGet, h, h']
  | cons kv rest ih =>
    obtain ⟨k, best⟩ := kv
    by_cases h1 : k = ch.codebase
    · by_cases h2 : k = cb
      · have h3 : cb = ch.codebase := h2 ▸ h1
        by_cases h4 : best.changeid < ch.changeid <;>
          simp [insertLastChange, assocGet, h1, h2, h3, h4]
      · have h3 : ¬(cb = ch.codebase) := fun hh => h2 (h1.trans hh.symm)
        have h5 : ¬(ch.codebase = cb) := fun hh => h3 hh.symm
        by_cases h4 : best.changeid < ch.changeid <;>
          simp [insertLastChange, assocGet, h1, h2, h3, h4, h5]
    · by_cases h2 : k = cb
      · have h3 : ¬(cb = ch.codebase) := fun hh => h1 (h2.trans hh)
        simp [insertLastChange, assocGet, h1, h2, h3]
      · simp [insertLastChange, assocGet, h1, h2, ih]

/-- Invariant of the per-codebase grouping fold: every entry carries its
own codebase, comes from the processed changes or the initial accumulator,
and dominates (by changeid) every processed change of its codebase as well
as the initial entry it replaced. -/
theorem foldl_insertLastChange_spec (changes : List SchedChange) :
    ∀ (acc : List (String × SchedChange)),
      (∀ cb x, assocGet acc cb = some x → x.codebase = cb) →
      ∀ cb ch, assocGet (changes.foldl insertLastChange acc) cb = some ch →
        ch.codebase = cb
        ∧ (ch ∈ changes ∨ assocGet acc cb = some ch)
        ∧ (∀ ch' ∈ changes, ch'.codebase = cb → ch'.changeid ≤ ch.changeid)
        ∧ (∀ x, assocGet acc cb = some x → x.changeid ≤ ch.changeid) := by
  induction changes with
  | nil =>
    intro acc Hacc cb ch h
    simp only [List.foldl_nil] at h
    refine ⟨Hacc cb ch h, Or.inr h, by simp, ?_⟩
    intro x hx
    obtain rfl : x = ch := Option.some_inj.mp (hx.symm.trans h)
    exact le_refl _
  | cons c0 tl ih =>
    intro acc Hacc cb ch h
    simp only [List.foldl_cons] at h
    have Hacc' : ∀ cb' x, assocGet (insertLastChange acc c0) cb' = some x →
        x.codebase = cb' := by
      intro cb' x hx
      rw [assocGet_insertLastChange] at hx
      by_cases hcb : cb' = c0.codebase
      · rw [if_pos hcb] at hx
        cases hoa : assocGet acc cb' with
        | none =>
          rw [hoa] at hx
          simp at hx
          rw [← hx, hcb]
        | some best =>
          rw [hoa] at hx
          by_cases hlt : best.changeid < c0.changeid
          · simp [hlt] at hx
            rw [← hx, hcb]
          · simp [hlt] at hx
            rw [← hx]
            exact Hacc cb' best hoa
      · rw [if_neg hcb] at hx
        exact Hacc cb' x hx
    obtain ⟨ha, hb, hc, hlast⟩ := ih (insertLastChange acc c0) Hacc' cb ch h
    have hentry : ∀ x, assocGet acc cb = some x →
        ∃ y, assocGet (insertLastChange acc c0) cb = some y
          ∧ x.changeid ≤ y.changeid := by
      intro x hx
      rw [assocGet_insertLastChange]
      by_cases hcb : cb = c0.codebase
      · rw [if_pos hcb, hx]
        by_cases hlt : x.changeid < c0.changeid
        · exact ⟨c0, by simp [hlt], Nat.le_of_lt hlt⟩
        · exact ⟨x, by simp [hlt], le_refl _⟩
      · rw [if_neg hcb]
        exact ⟨x, hx, le_refl _⟩
    refine ⟨ha, ?_, ?_, ?_⟩
    · cases hb with
      | inl hmem => exact Or.inl (List.mem_cons_of_mem c0 hmem)
      | inr hacc' =>
        rw [assocGet_insertLastChange] at hacc'
        by_cases hcb : cb = c0.codebase
        · rw [if_pos hcb] at hacc'
          cases hoa : assocGet acc cb with
          | none =>
            rw [hoa] at hacc'
            simp at hacc'
            subst hacc'
            exact Or.inl (List.mem_cons_self _ _)
          | some best =>
            rw [hoa] at hacc'
            by_cases hlt : best.changeid < c0.changeid
            · simp [hlt] at hacc'
              subst hacc'
              exact Or.inl (List.mem_cons_self _ _)
            · simp [hlt] at hacc'
              subst hacc'
              exact Or.inr rfl
        · rw [if_neg hcb] at hacc'
          exact Or.inr hacc'
    · intro ch' hmem hcb'
      cases List.mem_cons.mp hmem with
      | inl heq =>
        subst heq
        have hex : ∃ y, assocGet (insertLastChange acc ch') cb = some y
            ∧ ch'.changeid ≤ y.changeid := by
          rw [assocGet_insertLastChange]
          rw [if_pos hcb'.symm]
          cases hoa : assocGet acc cb with
          | none => exact ⟨ch', rfl, le_refl _⟩
          | some best =>
            by_cases hlt : best.changeid < ch'.changeid
            · exact ⟨ch', by simp [hlt], le_refl _⟩
            · exact ⟨best, by simp [hlt], Nat.le_of_not_lt hlt⟩
        obtain ⟨y, hy, hle⟩ := hex
        exact hle.trans (hlast y hy)
      | inr htl => exact hc ch' htl hcb'
    · intro x hx
      obtain ⟨y, hy, hle⟩ := hentry x hx
      exact hle.trans (hlast y hy)

/-- C2 counterexample: constructing a ChangeFilter that supplies both a
value-based branch filter and a branch callable succeeds -- construction
does not fail with a configuration error, contrary to the claim. -/
theorem C2_counterexample_value_and_fn_accepted :
    ∃ cf, ChangeFilter.init
      { branch := BranchArg.val (PyVal.str "master"),
        branch_fn := some (fun w => w == PyVal.str "master") } = Except.ok cf :=
  ⟨_, rfl⟩

/-- C2 (amended): supplying both a value-based filter and a callable for
the same field (shown for branch) is accepted at construction, and both
filters apply conjunctively at filter time; construction-time configuration
errors arise from invalid-typed filter values instead. -/
theorem C2_value_and_fn_filters_coexist (f : PyVal → Bool) (v : String) :
    (∃ cf, ChangeFilter.init
        { branch := BranchArg.val (PyVal.str v), branch_fn := some f }
        = Except.ok cf
      ∧ ∀ (c : Change) (b : PyVal), c.attrs "branch" = some b →
          cf.filter_change c = Except.ok (f b && (b == PyVal.str v)))
    ∧ (∃ err, ChangeFilter.init
        { branch := BranchArg.invalid, branch_fn := some f }
        = Except.error err) := by
  constructor
  · refine ⟨_, rfl, ?_⟩
    intro c b hb
    simp [ChangeFilter.filter_change, ChangeFilter.filterFnPass,
      ChangeFilter.fieldFiltersPass, ChangeFilter.propertyFiltersPass,
      checkFieldFn, getattrEx, getattrD, hb, seqCheck, ChangeFilter.init,
      _create_filters, _create_branch_filters, _create_property_filters,
      branchArgList]
    cases hfb : f b <;> cases hbv : b == PyVal.str v <;>
      simp [hfb, hbv, seqCheck]
  · exact ⟨_, rfl⟩

/-- C2 witness: the concrete both-filters construction on the branch field,
evaluated on a change with branch `master`. -/
theorem C2_value_and_fn_filters_coexist_witness :
    ∃ cf, ChangeFilter.init
        { branch := BranchArg.val (PyVal.str "master"),
          branch_fn := some (fun w => w == PyVal.str "master") }
        = Except.ok cf
      ∧ cf.filter_change masterBranchChange
        = Except.ok (((PyVal.str "master") == PyVal.str "master")
            && ((PyVal.str "master") == PyVal.str "master")) := by
  obtain ⟨⟨cf, h1, h2⟩, _⟩ :=
    C2_value_and_fn_filters_coexist (fun w => w == PyVal.str "master") "master"
  exact ⟨cf, h1, h2 masterBranchChange (PyVal.str "master") rfl⟩

/-- C4: within each codebase, the grouping used by addBuildsetForChanges
selects a change of that codebase, drawn from the processed changes, whose
changeid dominates every processed change of the codebase; concretely,
changeids [14, 15, 13] (sourcestamp ids 11, 10, 12) select sourcestamp 10,
the one of the highest changeid 15. -/
theorem C4_highest_changeid_selects_sourcestamp :
    (∀ (changes : List SchedChange) (cb : String) (ch : SchedChange),
      assocGet (lastChangePerCodebase changes) cb = some ch →
        ch.codebase = cb ∧ ch ∈ changes
        ∧ ∀ ch' ∈ changes, ch'.codebase = cb → ch'.changeid ≤ ch.changeid)
    ∧ (addBuildsetForChanges
        { name := "n", builderNames := ["b", "c"],
          codebases := [("cb", { repository := some "http://repo" })],
          properties := [] }
        [ { changeid := 13, codebase := "cb", sourcestampid := 12 },
          { changeid := 14, codebase := "cb", sourcestampid := 11 },
          { changeid := 15, codebase := "cb", sourcestampid := 10 } ]
        "power" false [14, 15, 13]).sourcestamps = [SS.id 10] := by
  constructor
  · intro changes cb ch h
    rw [lastChangePerCodebase] at h
    obtain ⟨ha, hb, hc, _⟩ := foldl_insertLastChange_spec changes []
      (by intro cb' x hx; simp [assocGet] at hx) cb ch h
    exact ⟨ha, hb.resolve_right (by simp [assocGet]), hc⟩
  · rfl

/-- C4 witness: the grouping of two changes of one codebase keeps the
higher changeid, which dominates both. -/
theorem C4_highest_changeid_selects_sourcestamp_witness :
    assocGet (lastChangePerCodebase
      [{ changeid := 13, codebase := "cb", sourcestampid := 12 },
       { changeid := 15, codebase := "cb", sourcestampid := 10 }]) "cb"
      = some { changeid := 15, codebase := "cb", sourcestampid := 10 }
    ∧ (({ changeid := 15, codebase := "cb", sourcestampid := 10 } :
          SchedChange).codebase = "cb"
      ∧ ({ changeid := 15, codebase := "cb", sourcestampid := 10 } :
          SchedChange)
        ∈ [{ changeid := 13, codebase := "cb", sourcestampid := 12 },
           { changeid := 15, codebase := "cb", sourcestampid := 10 }]
      ∧ ∀ ch' ∈ [({ changeid := 13, codebase := "cb", sourcestampid := 12 } :
              SchedChange),
            { changeid := 15, codebase := "cb", sourcestampid := 10 }],
          ch'.codebase = "cb" →
            ch'.changeid ≤
              ({ changeid := 15, codebase := "cb", sourcestampid := 10 } :
                SchedChange).changeid) :=
  ⟨by rfl, C4_highest_changeid_selects_sourcestamp.1
    [{ changeid := 13, codebase := "cb", sourcestampid := 12 },
     { changeid := 15, codebase := "cb", sourcestampid := 10 }] "cb"
    { changeid := 15, codebase := "cb", sourcestampid := 10 } (by rfl)⟩

/-- C6: filter_change returns true exactly when every configured sub-filter
passes (generic filter function, the five per-field callables in source
order, the value-based field filters and the property filters); moreover
any normally-returned boolean is true exactly under the same condition, so
a single failing sub-filter forces a false return. -/
theorem C6_filter_change_iff_all_pass (cf : ChangeFilter) (c : Change) :
    (cf.filter_change c = Except.ok true ↔ cf.allChecksPass c)
    ∧ (∀ b, cf.filter_change c = Except.ok b →
        (b = true ↔ cf.allChecksPass c)) := by
  have hiff : cf.filter_change c = Except.ok true ↔ cf.allChecksPass c := by
    unfold ChangeFilter.filter_change ChangeFilter.allChecksPass
    simp [seqCheck_eq_ok_true]
  refine ⟨hiff, ?_⟩
  intro b hb
  constructor
  · intro hbt
    exact hiff.mp (hbt ▸ hb)
  · intro hall
    have h2 := hb.symm.trans (hiff.mpr hall)
    simpa using h2

/-- C6 witness: the empty filter accepts the empty change, and a normal
true return coincides with all (vacuous) checks passing. -/
theorem C6_filter_change_iff_all_pass_witness :
    emptyChangeFilter.filter_change emptyChange = Except.ok true
    ∧ (true = true ↔ emptyChangeFilter.allChecksPass emptyChange) :=
  ⟨rfl, (C6_filter_change_iff_all_pass emptyChangeFilter emptyChange).2 true rfl⟩

/-- C7: when the importance callable raises on a change that passed the
filter, that change is dropped exactly as if filtered out (it is not
delivered to the per-change handler), one error is logged, and consumption
of the surrounding changes is unaffected. -/
theorem C7_importance_exception_drops_change
    (cfg : ConsumeCfg) (f : Change → Except String Bool) (e : String)
    (ch : Change) (pre post : List Change)
    (hf : cfg.fileIsImportant = some f)
    (herr : f ch = Except.error e)
    (hflt : ∀ flt, cfg.change_filter = some flt → flt ch = true) :
    consumeChanges cfg (pre ++ ch :: post)
      = ((consumeChanges cfg pre).1 ++ (consumeChanges cfg post).1,
        (consumeChanges cfg pre).2 + 1 + (consumeChanges cfg post).2) := by
  have hpc : processChange cfg ch = (Option.none, true) := by
    unfold processChange
    rw [hf]
    cases hcf : cfg.change_filter with
    | none => simp [herr]
    | some flt => simp [hflt flt hcf, herr]
  induction pre with
  | nil =>
    simp [consumeChanges, hpc]
  | cons q tl ih =>
    simp only [List.cons_append, consumeChanges, List.append_eq]
    rw [ih]
    cases hq : (processChange cfg q).1 <;> simp [hq] <;> omega

/-- C7 witness: an always-raising importance callable between two normally
delivered changes: both neighbours are delivered, the middle change is
dropped and one error is logged. -/
theorem C7_importance_exception_drops_change_witness :
    raisingImportanceCfg.fileIsImportant = some alwaysRaises
    ∧ alwaysRaises emptyChange = Except.error "ZeroDivisionError"
    ∧ consumeChanges raisingImportanceCfg
        ([masterBranchChange] ++ emptyChange :: [masterBranchChange])
      = ((consumeChanges raisingImportanceCfg [masterBranchChange]).1
          ++ (consumeChanges raisingImportanceCfg [masterBranchChange]).1,
        (consumeChanges raisingImportanceCfg [masterBranchChange]).2 + 1
          + (consumeChanges raisingImportanceCfg [masterBranchChange]).2) :=
  ⟨rfl, rfl,
    C7_importance_exception_drops_change raisingImportanceCfg alwaysRaises
      "ZeroDivisionError" emptyChange [masterBranchChange] [masterBranchChange]
      rfl rfl (by intro flt h; simp [raisingImportanceCfg] at h)⟩

/-- C10: a value-based field filter on a change lacking the filtered
attribute evaluates against the empty string, and a property filter on a
change lacking the property does likewise, so filter_change cannot
distinguish an absent field or property from one set to the empty string
(provided no callable reads the absent field directly). -/
theorem C10_absent_field_equals_empty_string
    (cf : ChangeFilter) (c : Change) (fieldName propName : String)
    (hfn : cf.filter_fn = Option.none)
    (hattr : c.attrs fieldName = Option.none)
    (hffn : cf.fnForAttr fieldName = Option.none)
    (hprop : c.properties propName = Option.none) :
    cf.filter_change c = cf.filter_change (c.setAttr fieldName (PyVal.str ""))
    ∧ cf.filter_change c
      = cf.filter_change (c.setProperty propName (PyVal.str "")) := by
  constructor
  · have h1 : cf.filterFnPass (c.setAttr fieldName (PyVal.str ""))
        = cf.filterFnPass c := by
      simp [ChangeFilter.filterFnPass, hfn]
    have hp : cf.project_fn = Option.none ∨ "project" ≠ fieldName := by
      by_cases h : fieldName = "project"
      · left; rw [ChangeFilter.fnForAttr, if_pos h] at hffn; exact hffn
      · right; exact fun hh => h hh.symm
    have hcb : cf.codebase_fn = Option.none ∨ "codebase" ≠ fieldName := by
      by_cases h : fieldName = "codebase"
      · left; simp [ChangeFilter.fnForAttr, h] at hffn; exact hffn
      · right; exact fun hh => h hh.symm
    have hr : cf.repository_fn = Option.none ∨ "repository" ≠ fieldName := by
      by_cases h : fieldName = "repository"
      · left; simp [ChangeFilter.fnForAttr, h] at hffn; exact hffn
      · right; exact fun hh => h hh.symm
    have hcat : cf.category_fn = Option.none ∨ "category" ≠ fieldName := by
      by_cases h : fieldName = "category"
      · left; simp [ChangeFilter.fnForAttr, h] at hffn; exact hffn
      · right; exact fun hh => h hh.symm
    have hbr : cf.branch_fn = Option.none ∨ "branch" ≠ fieldName := by
      by_cases h : fieldName = "branch"
      · left; simp [ChangeFilter.fnForAttr, h] at hffn; exact hffn
      · right; exact fun hh => h hh.symm
    have hff : cf.fieldFiltersPass (c.setAttr fieldName (PyVal.str ""))
        = cf.fieldFiltersPass c := by
      unfold ChangeFilter.fieldFiltersPass
      congr 1
      funext flt
      rw [getattrD_setAttr_absent c fieldName flt.prop hattr]
    have hpf : cf.propertyFiltersPass (c.setAttr fieldName (PyVal.str ""))
        = cf.propertyFiltersPass c := rfl
    unfold ChangeFilter.filter_change
    rw [h1, hff, hpf,
      checkFieldFn_setAttr cf.project_fn c fieldName "project" (PyVal.str "") hp,
      checkFieldFn_setAttr cf.codebase_fn c fieldName "codebase" (PyVal.str "") hcb,
      checkFieldFn_setAttr cf.repository_fn c fieldName "repository" (PyVal.str "") hr,
      checkFieldFn_setAttr cf.category_fn c fieldName "category" (PyVal.str "") hcat,
      checkFieldFn_setAttr cf.branch_fn c fieldName "branch" (PyVal.str "") hbr]
  · have h1 : cf.filterFnPass (c.setProperty propName (PyVal.str ""))
        = cf.filterFnPass c := by
      simp [ChangeFilter.filterFnPass, hfn]
    have h2 : ∀ fn n, checkFieldFn fn (c.setProperty propName (PyVal.str "")) n
        = checkFieldFn fn c n := fun fn n => rfl
    have hff : cf.fieldFiltersPass (c.setProperty propName (PyVal.str ""))
        = cf.fieldFiltersPass c := rfl
    have hpf : cf.propertyFiltersPass (c.setProperty propName (PyVal.str ""))
        = cf.propertyFiltersPass c := by
      unfold ChangeFilter.propertyFiltersPass
      congr 1
      funext flt
      rw [getPropertyD_setProperty_absent c propName flt.prop hprop]
    unfold ChangeFilter.filter_change
    rw [h1, hff, hpf, h2, h2, h2, h2, h2]

/-- C10 witness: a filter with a category field filter and a color property
filter cannot tell the empty change from the same change with those entries
set to the empty string. -/
theorem C10_absent_field_equals_empty_string_witness :
    sampleCategoryFilter.filter_fn = Option.none
    ∧ emptyChange.attrs "category" = Option.none
    ∧ sampleCategoryFilter.fnForAttr "category" = Option.none
    ∧ emptyChange.properties "color" = Option.none
    ∧ (sampleCategoryFilter.filter_change emptyChange
        = sampleCategoryFilter.filter_change
            (emptyChange.setAttr "category" (PyVal.str ""))
      ∧ sampleCategoryFilter.filter_change emptyChange
        = sampleCategoryFilter.filter_change
            (emptyChange.setProperty "color" (PyVal.str ""))) :=
  ⟨rfl, rfl, rfl, rfl,
    C10_absent_field_equals_empty_string sampleCategoryFilter emptyChange
      "category" "color" rfl rfl rfl rfl⟩
